import Mathlib

/-!
# Verification of the trade-hunter condition-driven scoring engine

Shallow embedding of the scoring and aggregation engine of the
`trade-hunter` repository, together with theorems settling the frozen
claims about its natural-language specification.

Python numbers (ints and floats) are modelled as `ℚ`; Python dicts as
association lists in insertion order; fallible evaluation as `Except`.

Covered source files:
* `src/scoring/safe_eval.py`           (namespace `SafeEval`)
* `src/scoring/fundamentals_scoring.py` (namespace `Fund`)
* `src/rulebooks/scoring_system.py`    (namespaces `Tech`, `MasterB`, `BaseComp`)
* `src/scoring/master_scoring.py`      (namespace `MasterA`)
* `src/scoring/options_flow_scoring.py` (namespace `OptFlow`)
* `src/scoring/price_action_scoring.py` (namespace `PA`)
* the Refresh/Staleness Coordinator    (namespace `Staleness`, modelled
  from the spec: only its declarations exist in the source)
-/

namespace SafeEval

/-- A Python value as it can appear in a snapshot variable mapping:
`None`, a boolean, a number (int/float modelled as `ℚ`), or a string. -/
inductive Val where
  | none
  | bool (b : Bool)
  | num (q : ℚ)
  | str (s : String)
  deriving DecidableEq, Repr

/-- The distinct `raise` sites of `safe_eval` (`src/scoring/safe_eval.py`).
In the source every one of them surfaces as a `ValueError`: errors raised
inside `_eval` are either the explicit `ValueError`s or are wrapped by the
final `except Exception` handler (lines 130-136). -/
inductive Err where
  | unknownVar (id : String)   -- "Unknown variable: ..."
  | unsupportedNode            -- "Unsupported or unsafe AST node type ..." (also non-allow-listed operators)
  | malformedBoolOp            -- "Boolean operation requires at least 2 values ..."
  | typeError                  -- a TypeError from an operator, wrapped into ValueError
  | divByZero                  -- ZeroDivisionError, wrapped into ValueError
  deriving DecidableEq, Repr

/-- Binary arithmetic operators admitted by the `OPS` table. -/
inductive BinOp where
  | add | sub | mul | div | mod
  deriving DecidableEq, Repr

/-- Comparison operators admitted by the `OPS` table. -/
inductive CmpOp where
  | eq | ne | gt | ge | lt | le | isOp | isNotOp
  deriving DecidableEq, Repr

/-- Boolean combinators admitted by the `OPS` table (`and` / `or`). -/
inductive BoolOpK where
  | andOp | orOp
  deriving DecidableEq, Repr

/-- The abstract syntax accepted (or explicitly rejected) by `safe_eval`'s
`_eval`.  `call`, `attribute` and `subscript` stand for the AST node kinds
that fall through to the final "Reject all other node types" branch of
`_eval` (`src/scoring/safe_eval.py` line 128); the parse step
(`ast.parse`) is outside the embedding, which works on the tree. -/
inductive Expr where
  | const (v : Val)
  | name (id : String)
  | binop (op : BinOp) (l r : Expr)
  | boolop (op : BoolOpK) (values : List Expr)
  | cmp (left : Expr) (pairs : List (CmpOp × Expr))
  | call (fn : String) (args : List Expr)
  | attribute (obj : Expr) (attr : String)
  | subscript (obj : Expr) (idx : Expr)

/-- Python truthiness (`bool(x)`), as applied by `safe_eval` to its result
and by the `and`/`or` lambdas of the `OPS` table. -/
def truthy : Val → Bool
  | .none => false
  | .bool b => b
  | .num q => decide (q ≠ 0)
  | .str s => decide (s ≠ "")

/-- Numeric view of a value: Python treats `bool` as an `int` subclass. -/
def toNum : Val → Option ℚ
  | .bool b => some (if b then 1 else 0)
  | .num q => some q
  | _ => Option.none

/-- Embeds `operator.add`: numbers add, strings concatenate, any other operand
combination over the modelled value types raises `TypeError`. -/
def pyAdd : Val → Val → Except Err Val
  | .str a, .str b => .ok (.str (a ++ b))
  | a, b =>
    match toNum a, toNum b with
    | some x, some y => .ok (.num (x + y))
    | _, _ => .error .typeError

/-- Embeds `operator.sub` (numeric only on the modelled types). -/
def pySub (a b : Val) : Except Err Val :=
  match toNum a, toNum b with
  | some x, some y => .ok (.num (x - y))
  | _, _ => .error .typeError

/-- Embeds `operator.mul` on numbers.  Sequence repetition (`str * int`) is not
used by any rule-table condition and is modelled as `TypeError`. -/
def pyMul (a b : Val) : Except Err Val :=
  match toNum a, toNum b with
  | some x, some y => .ok (.num (x * y))
  | _, _ => .error .typeError

/-- Embeds `operator.truediv`: division by zero raises `ZeroDivisionError`. -/
def pyDiv (a b : Val) : Except Err Val :=
  match toNum a, toNum b with
  | some x, some y => if y = 0 then .error .divByZero else .ok (.num (x / y))
  | _, _ => .error .typeError

/-- Embeds `operator.mod`: Python's sign convention `a - b * floor(a / b)`. -/
def pyMod (a b : Val) : Except Err Val :=
  match toNum a, toNum b with
  | some x, some y =>
    if y = 0 then .error .divByZero else .ok (.num (x - y * ⌊x / y⌋))
  | _, _ => .error .typeError

/-- Python `==` over the modelled value types (`True == 1` holds because
`bool` is an `int`; values of unrelated types compare unequal). -/
def pyEq : Val → Val → Bool
  | .none, .none => true
  | .str a, .str b => a == b
  | a, b =>
    match toNum a, toNum b with
    | some x, some y => x == y
    | _, _ => false

/-- Python `<`: numbers (and bools) by value, strings lexicographically,
any other combination raises `TypeError` — in particular
`None < number` does. -/
def pyLt : Val → Val → Except Err Bool
  | .str a, .str b => .ok (compare a b == Ordering.lt)
  | a, b =>
    match toNum a, toNum b with
    | some x, some y => .ok (decide (x < y))
    | _, _ => .error .typeError

/-- Python `is` restricted to the modelled value types: `None` and the two
booleans are singletons, so identity coincides with equality for them;
for numbers and strings identity of fresh objects is false (interning of
small ints is an implementation detail no rule-table condition relies
on). -/
def pyIs : Val → Val → Bool
  | .none, .none => true
  | .bool a, .bool b => a == b
  | _, _ => false

/-- Dispatch for the binary-arithmetic rows of the `OPS` table. -/
def applyBin : BinOp → Val → Val → Except Err Val
  | .add => pyAdd
  | .sub => pySub
  | .mul => pyMul
  | .div => pyDiv
  | .mod => pyMod

/-- Dispatch for the comparison rows of the `OPS` table.  `>`/`>=`/`<=`
are derived from `<` and `==` exactly as Python's rich comparisons
behave on the modelled types. -/
def applyCmp : CmpOp → Val → Val → Except Err Bool
  | .eq, a, b => .ok (pyEq a b)
  | .ne, a, b => .ok (!pyEq a b)
  | .lt, a, b => pyLt a b
  | .gt, a, b => pyLt b a
  | .le, a, b => do pure ((← pyLt a b) || pyEq a b)
  | .ge, a, b => do pure ((← pyLt b a) || pyEq a b)
  | .isOp, a, b => .ok (pyIs a b)
  | .isNotOp, a, b => .ok (!pyIs a b)

/-- The `and`/`or` lambdas of the `OPS` table: `lambda a, b: a and b`
returns `b` when `a` is truthy and `a` otherwise (Python semantics of
`and` applied to two already-computed values), dually for `or`. -/
def applyBoolOp : BoolOpK → Val → Val → Val
  | .andOp, a, b => if truthy a then b else a
  | .orOp, a, b => if truthy a then a else b

/-- The variable mapping passed to `safe_eval` (a Python dict). -/
abbrev Env := List (String × Val)

mutual

/-- Embeds `_eval` of `safe_eval` (`src/scoring/safe_eval.py` lines 66-128):
constants and names evaluate directly (an unknown name raises), `BinOp`
and `BoolOp` evaluate all operands eagerly and fold with the `OPS`
entry, `Compare` chains left-to-right and stops at the first failing
comparison, and every other node kind is rejected. -/
def evalExpr (env : Env) : Expr → Except Err Val
  | .const v => .ok v
  | .name id =>
    match env.lookup id with
    | some v => .ok v
    | Option.none => .error (.unknownVar id)
  | .binop op l r => do
    let a ← evalExpr env l
    let b ← evalExpr env r
    applyBin op a b
  | .boolop op vs =>
    match vs with
    | v₁ :: rest =>
      match rest with
      | [] => .error .malformedBoolOp
      | _ :: _ => do
        let a ← evalExpr env v₁
        evalBoolChain env op a rest
    | [] => .error .malformedBoolOp
  | .cmp l pairs => do
    let a ← evalExpr env l
    let b ← evalCmpChain env a pairs
    pure (.bool b)
  | .call _ _ => .error .unsupportedNode
  | .attribute _ _ => .error .unsupportedNode
  | .subscript _ _ => .error .unsupportedNode

/-- The `for value in node.values[1:]` loop of the `BoolOp` case: each
further operand is evaluated before the operator lambda is applied (no
short-circuit). -/
def evalBoolChain (env : Env) (op : BoolOpK) (acc : Val) : List Expr → Except Err Val
  | [] => .ok acc
  | e :: rest => do
    let v ← evalExpr env e
    evalBoolChain env op (applyBoolOp op acc v) rest

/-- The chained-comparison loop of the `Compare` case: comparators to the
right of the first failing comparison are not evaluated. -/
def evalCmpChain (env : Env) (left : Val) : List (CmpOp × Expr) → Except Err Bool
  | [] => .ok true
  | (op, e) :: rest => do
    let right ← evalExpr env e
    let r ← applyCmp op left right
    if r then evalCmpChain env right rest else .ok false

end

/-- Embeds `safe_eval` after parsing: evaluate the tree and apply `bool(...)`
to the result.  Every raised exception is a `ValueError` (modelled by
`Err`). -/
def safeEvalB (env : Env) (e : Expr) : Except Err Bool :=
  (evalExpr env e).map truthy

end SafeEval

namespace Fund

/-- One `State` of the fundamentals rule table: a condition string and a
score range `[low, high]` (`state_rule.get("condition")` /
`state_rule.get("score_range", [-1, 1])`).  A missing or empty condition
is modelled as `""` — both are falsy in the source's
`if not condition_expr: continue` guard. -/
structure FState where
  condition : String
  scoreRange : ℚ × ℚ

/-- One `Metric` of the rule table: its group name, its weight
(`metric_rule.get("weight", 1.0)`) and its per-timeframe state sets. -/
structure Metric where
  group : String
  weight : ℚ
  timeframes : List (String × List (String × FState))

/-- The rule-table shape consumed by `FundamentalsScoringEngine`:
`meta.groups` (name ↦ `base_weight`) and the metric dict. -/
structure Rulebook where
  groups : List (String × ℚ)
  metrics : List (String × Metric)

/-- Computes `(low + high) / 2.0` — the midpoint score of a matched state. -/
def midpoint (r : ℚ × ℚ) : ℚ := (r.1 + r.2) / 2

/-- Embeds `FundamentalsScoringEngine._score_metric_states`: collect every state
whose (non-empty) condition matches, return the arithmetic mean of the
matched midpoints (`None` when no state matched) plus the matched
`"METRIC.STATE"` names.  `matchf` stands for
`self._match_condition(snapshot, ·)` with the snapshot fixed. -/
def scoreMetricStates (matchf : String → Bool) (metricName : String)
    (states : List (String × FState)) : Option ℚ × List String :=
  let matched := states.filter fun p => p.2.condition ≠ "" && matchf p.2.condition
  let scores := matched.map fun p => midpoint p.2.scoreRange
  let names := matched.map fun p => metricName ++ "." ++ p.1
  match scores with
  | [] => (Option.none, names)
  | _ :: _ => (some (scores.sum / scores.length), names)

/-- Accumulator of the metric loop in `_score_timeframe`:
`weighted_sum`, `total_weight`, `metric_scores`, `matched_states`. -/
structure TFAcc where
  wsum : ℚ
  wtot : ℚ
  scores : List (String × ℚ)
  states : List String

/-- One iteration of the metric loop of `_score_timeframe`: skip the
metric when it has no entry for this timeframe or no state matched;
otherwise add `metric_score * (metric_weight * group_base_weight)` to the
numerator and the weight product to the denominator. -/
def tfStep (matchf : String → Bool) (groups : List (String × ℚ)) (tf : String)
    (acc : TFAcc) (p : String × Metric) : TFAcc :=
  match p.2.timeframes.lookup tf with
  | Option.none => acc
  | some states =>
    let gw := (groups.lookup p.2.group).getD 1
    let res := scoreMetricStates matchf p.1 states
    match res.1 with
    | Option.none => acc
    | some s =>
      let w := p.2.weight * gw
      { wsum := acc.wsum + s * w
        wtot := acc.wtot + w
        scores := acc.scores ++ [(p.1, s)]
        states := acc.states ++ res.2 }

/-- Embeds `FundamentalsScoringEngine._score_timeframe`: weighted average of the
metric scores over the metrics that produced one; `0.0` when
`total_weight == 0`. -/
def scoreTimeframe (matchf : String → Bool) (rb : Rulebook) (tf : String) :
    ℚ × List (String × ℚ) × List String :=
  let acc := rb.metrics.foldl (tfStep matchf rb.groups tf) ⟨0, 0, [], []⟩
  if acc.wtot = 0 then (0, acc.scores, acc.states)
  else (acc.wsum / acc.wtot, acc.scores, acc.states)

/-- Embeds `FundamentalsScoringEngine._combine_minor_major`: 70/30 blend in
favour of MAJOR when both timeframes have magnitude above `1e-6`, the
lone non-negligible score directly otherwise, `0.0` when neither does. -/
def combineMinorMajor (minor major : ℚ) : ℚ :=
  let hasMinor := |minor| > 1 / 1000000
  let hasMajor := |major| > 1 / 1000000
  if hasMinor && hasMajor then major * (7 / 10) + minor * (3 / 10)
  else if hasMajor then major
  else if hasMinor then minor
  else 0

/-- Embeds `self.weight = 0.75` — the fundamentals department weight. -/
def deptWeight : ℚ := 3 / 4

/-- The combined (raw, unweighted) fundamentals score produced by
`FundamentalsScoringEngine.score`: MINOR and MAJOR timeframe scores fed
through `_combine_minor_major`. -/
def combinedScore (matchf : String → Bool) (rb : Rulebook) : ℚ :=
  combineMinorMajor (scoreTimeframe matchf rb "MINOR").1 (scoreTimeframe matchf rb "MAJOR").1

/-- Embeds `final_fundamentals_score`: `combined * self.weight` — the source
multiplies the combined score by the department weight directly, with no
clamping step in between. -/
def finalWeighted (matchf : String → Bool) (rb : Rulebook) : ℚ :=
  combinedScore matchf rb * deptWeight

end Fund

namespace Tech

/-- One `State` of the technical-indicator rule table
(`state_cfg.get("condition", "")`, `state_cfg.get("score_range", [-1, 1])`,
the two-element list case). -/
structure TState where
  condition : String
  scoreRange : ℚ × ℚ

/-- One indicator of `TECHNICAL_INDICATOR_RULEBOOK` as read by
`TechnicalIndicatorsComponent`: `cfg.get("base_impact", 5)` and the
optional per-timeframe state sets (`cfg.get("timeframes", {}).get(tf)`). -/
structure IndCfg where
  baseImpact : ℚ
  minor : Option (List (String × TState))
  major : Option (List (String × TState))

/-- Computes `(low + high) / 2.0` of a technical state's score range. -/
def midpoint (r : ℚ × ℚ) : ℚ := (r.1 + r.2) / 2

/-- Embeds `TechnicalIndicatorsComponent._score_indicator_timeframe`
(`src/rulebooks/scoring_system.py` lines 753-837): `None` without a
snapshot or timeframe config; otherwise the mean of the matched state
midpoints — and `0.0` (not `None`) when no state matched.  `matchf`
stands for `self._evaluate_condition(·, snapshot, symbol_state)`. -/
def scoreIndicatorTimeframe (matchf : String → Bool) (snapshotPresent : Bool)
    (tfCfg : Option (List (String × TState))) : Option ℚ :=
  if !snapshotPresent then Option.none
  else
    match tfCfg with
    | Option.none => Option.none
    | some states =>
      let matched := states.filter fun p => matchf p.2.condition
      let scores := matched.map fun p => midpoint p.2.scoreRange
      match scores with
      | [] => some 0
      | _ :: _ => some (scores.sum / scores.length)

/-- The per-indicator body of `_compute_raw_score`: blend the two
timeframe scores with the fixed 60/40 ratio, a `None` timeframe simply
contributing nothing (so a lone timeframe score is still multiplied by
its blend weight). -/
def combinedIndicator (sMinor sMajor : Option ℚ) : ℚ :=
  (match sMinor with | some s => s * (6 / 10) | Option.none => 0) +
  (match sMajor with | some s => s * (4 / 10) | Option.none => 0)

/-- One iteration of the indicator loop of `_compute_raw_score`:
`total_score += combined * base_impact; total_weight += abs(base_impact)`
— the weight is added for every configured indicator, matched or not. -/
def techStep (matchMinor matchMajor : String → Bool) (hasMinorSnap hasMajorSnap : Bool)
    (acc : ℚ × ℚ) (p : String × IndCfg) : ℚ × ℚ :=
  let sMinor := scoreIndicatorTimeframe matchMinor hasMinorSnap p.2.minor
  let sMajor := scoreIndicatorTimeframe matchMajor hasMajorSnap p.2.major
  let combined := combinedIndicator sMinor sMajor
  (acc.1 + combined * p.2.baseImpact, acc.2 + |p.2.baseImpact|)

/-- Embeds `TechnicalIndicatorsComponent._compute_raw_score`
(`src/rulebooks/scoring_system.py` lines 633-749): `0.0` when both
indicator snapshots are absent; otherwise
`total_score / total_weight` (0 when the weight sum is 0), clamped to
`[-10, 10]`. -/
def computeRawScore (matchMinor matchMajor : String → Bool)
    (hasMinorSnap hasMajorSnap : Bool) (indicators : List (String × IndCfg)) : ℚ :=
  if !hasMinorSnap && !hasMajorSnap then 0
  else
    let acc := indicators.foldl (techStep matchMinor matchMajor hasMinorSnap hasMajorSnap) (0, 0)
    let finalScore := if acc.2 = 0 then 0 else acc.1 / acc.2
    max (-10) (min 10 finalScore)

end Tech

namespace BaseComp

/-- Embeds `ComponentScore` of `src/rulebooks/scoring_system.py`: raw score
(clamped), master weight, and their product. -/
structure ComponentScore where
  rawScore : ℚ
  weight : ℚ
  weightedScore : ℚ

/-- Embeds `BaseScoringComponent.score_symbol`
(`src/rulebooks/scoring_system.py` lines 307-343): clamp the raw score to
`[-10, 10]`, then multiply by the component's master weight. -/
def scoreSymbol (raw weight : ℚ) : ComponentScore :=
  let clamped := max (-10) (min 10 raw)
  ⟨clamped, weight, clamped * weight⟩

end BaseComp

namespace MasterB

/-- The master-score sum of `MasterScoringEngine.score_universe`
(`src/rulebooks/scoring_system.py` line 1865):
`total = sum(c.weighted_score for c in component_scores)` — the plain
unweighted sum, never re-clamped. -/
def masterTotal (cs : List BaseComp.ComponentScore) : ℚ :=
  (cs.map fun c => c.weightedScore).sum

/-- The direction branch of `score_universe` (lines 1869-1880): strict
comparison against the fixed cutoff `0.5`. -/
def direction (total : ℚ) : String :=
  if total > 1 / 2 then "LONG"
  else if total < -(1 / 2) then "SHORT"
  else "NEUTRAL"

/-- One entity of `score_universe`: each component's `(raw, weight)` pair
is pushed through `BaseScoringComponent.score_symbol` and the weighted
scores are summed. -/
def scoreEntry (rawWeights : List (ℚ × ℚ)) : ℚ × String :=
  let cs := rawWeights.map fun p => BaseComp.scoreSymbol p.1 p.2
  (masterTotal cs, direction (masterTotal cs))

end MasterB

namespace MasterA

/-- Embeds `MasterScoringEngine.module_order` of `src/scoring/master_scoring.py`. -/
def moduleOrder : List String :=
  ["macro", "sector", "news", "technical", "options", "pattern",
   "strategy_context", "position_risk"]

/-- Embeds `MasterScoringEngine._clamp(value, -10.0, 10.0)`. -/
def clamp10 (v : ℚ) : ℚ := max (-10) (min 10 v)

/-- Embeds `MasterScoringEngine._direction_from_score`
(`src/scoring/master_scoring.py` lines 461-495): `LONG` when
`score >= threshold`, `SHORT` when `score <= -threshold`, else
`NEUTRAL`. -/
def directionFromScore (threshold score : ℚ) : String :=
  if score ≥ threshold then "LONG"
  else if score ≤ -threshold then "SHORT"
  else "NEUTRAL"

/-- The module loop of `MasterScoringEngine.score_symbol` (lines
283-379): enabled modules whose result dict carries a score are clamped
to `[-10, 10]` and accumulated with a count.  `results` models
`module_results` resolved through `module_score_keys` (module name ↦ the
score found under its score key; absent when the dict or key is
missing). -/
def accumulate (enabled : String → Bool) (results : List (String × ℚ)) : ℚ × ℕ :=
  moduleOrder.foldl
    (fun acc m =>
      if enabled m then
        match results.lookup m with
        | some raw => (acc.1 + clamp10 raw, acc.2 + 1)
        | Option.none => acc
      else acc)
    (0, 0)

/-- Embeds `MasterScoringEngine.score_symbol`: the final master score is the
*average* of the clamped module scores (`total / count`, `0.0` when no
module contributed), clamped again to `[-10, 10]`; the direction comes
from `_direction_from_score`. -/
def scoreSymbol (enabled : String → Bool) (threshold : ℚ)
    (results : List (String × ℚ)) : ℚ × String :=
  let acc := accumulate enabled results
  let finalScore := if acc.2 = 0 then 0 else acc.1 / (acc.2 : ℚ)
  let finalScore := clamp10 finalScore
  (finalScore, directionFromScore threshold finalScore)

end MasterA

namespace OptFlow

/-- One `State` of `OPTIONS_FLOW_RULEBOOK`'s MINOR timeframe: an optional
condition (an empty / missing condition string is modelled as `none`,
both make `_safe_eval` return `False`), a score range, and an optional
group name. -/
structure OFState where
  condition : Option SafeEval.Expr
  scoreRange : ℚ × ℚ
  group : Option String

/-- Embeds `OptionsFlowScoringEngine._safe_eval`
(`src/scoring/options_flow_scoring.py` lines 73-89): `False` for an
empty condition, otherwise `safe_eval` with every raised error caught
and turned into `False`. -/
def wrapSafeEval (c : Option SafeEval.Expr) (env : SafeEval.Env) : Bool :=
  match c with
  | Option.none => false
  | some e =>
    match SafeEval.safeEvalB env e with
    | .ok b => b
    | .error _ => false

/-- The state loop of `OptionsFlowScoringEngine.score` (lines 175-231):
every matched state *adds* its group-weighted midpoint
(`avg_score * base_weight`) to `minor_score_accumulator`. -/
def minorScore (groupWeights : List (String × ℚ)) (env : SafeEval.Env)
    (states : List (String × OFState)) : ℚ :=
  states.foldl
    (fun acc p =>
      if wrapSafeEval p.2.condition env then
        let gw :=
          match p.2.group with
          | some g => (groupWeights.lookup g).getD 1
          | Option.none => 1
        acc + midpoint p.2.scoreRange * gw
      else acc)
    0
where
  /-- Computes `(raw_min + raw_max) / 2`. -/
  midpoint (r : ℚ × ℚ) : ℚ := (r.1 + r.2) / 2

/-- Embeds `final_options_flow_score = minor_score_accumulator * self.weight`
(default weight `1.05`). -/
def finalScore (weight : ℚ) (groupWeights : List (String × ℚ)) (env : SafeEval.Env)
    (states : List (String × OFState)) : ℚ :=
  minorScore groupWeights env states * weight

end OptFlow

namespace PA

/-- One `State` of `PRICE_ACTION_RULEBOOK`: condition string and score
range. -/
structure PState where
  condition : String
  scoreRange : ℚ × ℚ

/-- One pattern: `base_impact` (`pattern_cfg.get("base_impact", 5)`) and
per-timeframe state sets. -/
structure Pattern where
  baseImpact : ℚ
  timeframes : List (String × List (String × PState))

/-- Computes `(score_range[0] + score_range[1]) / 2.0`. -/
def midpoint (r : ℚ × ℚ) : ℚ := (r.1 + r.2) / 2

/-- The state loops of `PriceActionScoringEngine._score_timeframe`
(`src/scoring/price_action_scoring.py` lines 181-289): every matched
state appends `midpoint * base_impact` to the score accumulator and
`base_impact` to the weight list.  `matchf` stands for
`self._match_state(pattern_data, ·)`. -/
def collect (matchf : String → Bool) (patterns : List (String × Pattern))
    (tf : String) : List ℚ × List ℚ :=
  patterns.foldl
    (fun acc p =>
      match p.2.timeframes.lookup tf with
      | Option.none => acc
      | some states =>
        states.foldl
          (fun acc' st =>
            if matchf st.2.condition then
              (acc'.1 ++ [midpoint st.2.scoreRange * p.2.baseImpact],
               acc'.2 ++ [p.2.baseImpact])
            else acc')
          acc)
    ([], [])

/-- Embeds `_score_timeframe`: `0` for an empty pattern dict or when nothing
matched, otherwise `sum(score_accumulator) / total_weight` (falling back
to the plain mean when the weights sum to `0`). -/
def scoreTimeframe (matchf : String → Bool) (patterns : List (String × Pattern))
    (tf : String) : ℚ :=
  if patterns.isEmpty then 0
  else
    let acc := collect matchf patterns tf
    match acc.1 with
    | [] => 0
    | scores =>
      let totalWeight := acc.2.sum
      if totalWeight > 0 then scores.sum / totalWeight
      else scores.sum / scores.length

/-- Embeds `self.weight = 1.2` — the price-action department weight. -/
def deptWeight : ℚ := 6 / 5

/-- Embeds `PriceActionScoringEngine.score` (lines 81-169):
`final = ((minor_score + major_score) / 2.0) * self.weight` — always the
plain mean of the two timeframes, even when one of them is zero. -/
def finalScore (matchf : String → Bool) (patterns : List (String × Pattern)) : ℚ :=
  (scoreTimeframe matchf patterns "MINOR" + scoreTimeframe matchf patterns "MAJOR") / 2
    * deptWeight

end PA

namespace Staleness

/-- Modelled from the spec: the Refresh/Staleness Coordinator of §4.6 and
the `DEPENDENCY_RULES` / `REFRESH_RULES` declarations on
`MasterScoringEngine` (`src/rulebooks/scoring_system.py` lines
1650-1739).  No coordinator implementation exists under `src/` — the
source only declares its trigger taxonomy and dependency rules — so the
per-(entity, department) record is modelled here: the last-known
weighted `ComponentScore` (`none` = `UNINITIALIZED`). -/
structure StaleRec where
  lastScore : Option ℚ

/-- Modelled from the spec: one cycle step for one department record.  A
department with a refresh trigger observed this cycle is recomputed;
absent a trigger its last-known value is kept unchanged. -/
def cycleStep (triggered : Bool) (recomputed : ℚ) (r : StaleRec) : StaleRec :=
  if triggered then ⟨some recomputed⟩ else r

/-- Modelled from the spec: one scoring cycle over all departments of one
entity — each department's record is advanced by `cycleStep` with its
own trigger flag and (lazily unused when untriggered) recomputed value. -/
def cycle (triggers : String → Bool) (recompute : String → ℚ)
    (recs : List (String × StaleRec)) : List (String × StaleRec) :=
  recs.map fun p => (p.1, cycleStep (triggers p.1) (recompute p.1) p.2)

/-- Modelled from the spec: the master sum over the department records —
departments never computed (`UNINITIALIZED`) are excluded from the sum,
all others contribute their last-known weighted score. -/
def masterSum (recs : List (String × StaleRec)) : ℚ :=
  (recs.filterMap fun p => p.2.lastScore).sum

end Staleness

namespace Fund

/-- Written from the spec's words (§4.3), for comparison with the source
embedding `scoreTimeframe`: the `(metric_score, metric_weight ×
group_base_weight)` pairs of exactly the Metrics that produced a score
for this timeframe. -/
def specContribs (matchf : String → Bool) (groups : List (String × ℚ)) (tf : String)
    (metrics : List (String × Metric)) : List (ℚ × ℚ) :=
  metrics.filterMap fun p =>
    match p.2.timeframes.lookup tf with
    | Option.none => Option.none
    | some states =>
      match (scoreMetricStates matchf p.1 states).1 with
      | Option.none => Option.none
      | some s => some (s, p.2.weight * (groups.lookup p.2.group).getD 1)

/-- Written from the spec's words (§4.3): the department-level timeframe
score `Σ(metric_score × metric_weight × group_base_weight) /
Σ(metric_weight × group_base_weight)` over the Metrics that produced a
score, `0` when the denominator is zero. -/
def specTimeframeScore (matchf : String → Bool) (rb : Rulebook) (tf : String) : ℚ :=
  let contribs := specContribs matchf rb.groups tf rb.metrics
  let den := (contribs.map Prod.snd).sum
  if den = 0 then 0 else (contribs.map fun q => q.1 * q.2).sum / den

end Fund

/-! ## Concrete fixtures used by the claim theorems -/

/-- Condition matcher recognising exactly the condition string `"condA"`. -/
def mfA : String → Bool := fun c => c == "condA"

/-- Condition matcher that matches every condition string. -/
def mfTrue : String → Bool := fun _ => true

/-- Technical indicator whose single MINOR state (condition `"condA"`,
range `[4, 4]`) matches under `mfA`; `base_impact` 5, no MAJOR config. -/
def indA : Tech.IndCfg := ⟨5, some [("S", ⟨"condA", (4, 4)⟩)], Option.none⟩

/-- Technical indicator whose single MINOR state (condition `"condB"`)
does not match under `mfA`; `base_impact` 5, no MAJOR config. -/
def indB : Tech.IndCfg := ⟨5, some [("S", ⟨"condB", (4, 4)⟩)], Option.none⟩

/-- Technical indicator with `base_impact` 5 and no timeframe
configuration at all, so it can never produce a score. -/
def indC : Tech.IndCfg := ⟨5, Option.none, Option.none⟩

/-- Always-true options-flow condition: the constant `True`. -/
def condTrue : Option SafeEval.Expr := some (SafeEval.Expr.const (SafeEval.Val.bool true))

/-- Two options-flow states that both match, with score midpoints 4 and 6
and no group weighting. -/
def ofTwoStates : List (String × OptFlow.OFState) :=
  [("S1", ⟨condTrue, (4, 4), Option.none⟩), ("S2", ⟨condTrue, (6, 6), Option.none⟩)]

/-- A price-action pattern with one always-matching MINOR state of
midpoint 4 and no MAJOR configuration. -/
def paPattern : PA.Pattern := ⟨5, [("MINOR", [("S", ⟨"c", (4, 4)⟩)])]⟩

/-- A fundamentals state whose score range `[100, 100]` lies far outside
the `[-10, 10]` scale. -/
def fs100 : Fund.FState := ⟨"c", (100, 100)⟩

/-- A fundamentals rule table whose single MAJOR metric carries the
out-of-scale state `fs100` (metric weight 1, group base weight 1). -/
def rb100 : Fund.Rulebook :=
  ⟨[("G", 1)], [("M", ⟨"G", 1, [("MAJOR", [("S", fs100)])]⟩)]⟩

/-- A valid fundamentals rule table: one MAJOR metric with one state of
score range `[4, 6]`, inside the `[-10, 10]` scale. -/
def rbValid : Fund.Rulebook :=
  ⟨[("G", 1)], [("M", ⟨"G", 1, [("MAJOR", [("S", ⟨"c", (4, 6)⟩)])]⟩)]⟩

/-- A fundamentals metric whose single MAJOR state has the never-matching
condition `"condB"` (under `mfA`). -/
def mNonMatching : Fund.Metric := ⟨"G", 1, [("MAJOR", [("S", ⟨"condB", (2, 2)⟩)])]⟩

/-- A fundamentals metric whose single MAJOR state has the matching
condition `"condA"` (under `mfA`), midpoint 4. -/
def mMatching : Fund.Metric := ⟨"G", 1, [("MAJOR", [("S", ⟨"condA", (4, 4)⟩)])]⟩

/-- The variable mapping of claim C10's example: `x` bound to `None`. -/
def envX : SafeEval.Env := [("x", SafeEval.Val.none)]

/-- First operand of C10's condition: `x is not None`. -/
def c10First : SafeEval.Expr :=
  SafeEval.Expr.cmp (SafeEval.Expr.name "x") [(SafeEval.CmpOp.isNotOp, SafeEval.Expr.const SafeEval.Val.none)]

/-- Second operand of C10's condition: `x > 0`. -/
def c10Second : SafeEval.Expr :=
  SafeEval.Expr.cmp (SafeEval.Expr.name "x") [(SafeEval.CmpOp.gt, SafeEval.Expr.const (SafeEval.Val.num 0))]

/-- C10's condition `x is not None and x > 0` as parsed by `ast.parse`. -/
def c10Expr : SafeEval.Expr := SafeEval.Expr.boolop .andOp [c10First, c10Second]

/-- The condition `abs(-3) > 1` as parsed by `ast.parse`: a `Call` node
appears as the left operand of the comparison. -/
def absExpr : SafeEval.Expr :=
  SafeEval.Expr.cmp (SafeEval.Expr.call "abs" [SafeEval.Expr.const (SafeEval.Val.num (-3))])
    [(SafeEval.CmpOp.gt, SafeEval.Expr.const (SafeEval.Val.num 1))]

/-- A staleness table with one initialized department record. -/
def recsFix : List (String × Staleness.StaleRec) := [("TECHNICAL", ⟨some 3⟩)]

/-- The empty fundamentals rule table. -/
def rbEmpty : Fund.Rulebook := ⟨[], []⟩

/-! ## Helper lemmas -/

/-- A successful association-list lookup returns a pair of the list. -/
theorem lookup_eq_some_mem {α β : Type} [BEq α] [LawfulBEq α]
    {l : List (α × β)} {k : α} {v : β} (h : l.lookup k = some v) : (k, v) ∈ l := by
  induction l with
  | nil => simp [List.lookup] at h
  | cons p t ih =>
    rw [List.lookup] at h
    by_cases hk : k == p.1
    · rw [hk] at h
      simp only [Option.some.injEq] at h
      have : k = p.1 := eq_of_beq hk
      subst this
      subst h
      exact List.mem_cons_self _ _
    · rw [Bool.eq_false_iff.mpr hk] at h
      exact List.mem_cons_of_mem _ (ih h)

/-- With nonnegative base weights, a group-weight lookup that defaults to
`1.0` is nonnegative. -/
theorem lookup_getD_nonneg {groups : List (String × ℚ)}
    (h : ∀ p ∈ groups, 0 ≤ p.2) (g : String) : 0 ≤ ((groups.lookup g).getD 1) := by
  cases hl : groups.lookup g with
  | none => norm_num
  | some v =>
    have := h _ (lookup_eq_some_mem hl)
    simpa using this

/-- Bounds on a list sum from uniform elementwise bounds. -/
theorem sum_bounds_of_mem {mn mx : ℚ} :
    ∀ L : List ℚ, (∀ x ∈ L, mn ≤ x ∧ x ≤ mx) →
      mn * L.length ≤ L.sum ∧ L.sum ≤ mx * L.length := by
  intro L
  induction L with
  | nil => intro _; simp
  | cons a t ih =>
    intro h
    obtain ⟨ha1, ha2⟩ := h a (List.mem_cons_self a t)
    obtain ⟨ht1, ht2⟩ := ih fun x hx => h x (List.mem_cons_of_mem a hx)
    simp only [List.sum_cons, List.length_cons]
    push_cast
    constructor <;> nlinarith

/-- The mean of a non-empty list lies between uniform elementwise bounds. -/
theorem mean_bounds_of_mem {mn mx : ℚ} (L : List ℚ)
    (h : ∀ x ∈ L, mn ≤ x ∧ x ≤ mx) (hne : L ≠ []) :
    mn ≤ L.sum / L.length ∧ L.sum / L.length ≤ mx := by
  have hlen : (0 : ℚ) < L.length := by
    have := List.length_pos.mpr hne
    exact_mod_cast this
  obtain ⟨h1, h2⟩ := sum_bounds_of_mem L h
  constructor
  · rw [le_div_iff₀ hlen]
    linarith
  · rw [div_le_iff₀ hlen]
    linarith

/-! ## Claim theorems -/

/-- C10: `safe_eval` evaluates both operands of `and` before applying the
operator, so on `x is not None and x > 0` with `x = None` the first
operand alone evaluates to `False` (short-circuit Python would stop
there), yet `safe_eval` goes on to evaluate `None > 0`, raises (a
`TypeError` wrapped into `ValueError`), and the engines' wrapper turns
that into a non-match. -/
theorem C10_boolop_no_short_circuit :
    SafeEval.evalExpr envX c10First = .ok (.bool false) ∧
    SafeEval.evalExpr envX c10Expr = .error .typeError ∧
    OptFlow.wrapSafeEval (some c10Expr) envX = false :=
  ⟨rfl, rfl, rfl⟩

/-- C4 counterexample: `abs` is not on any allow-list of `safe_eval` — the
condition `abs(-3) > 1` hits the "reject all other node types" branch
(`Call` is not handled), so evaluation errors and the wrapper reports a
non-match instead of admitting and evaluating the call. -/
theorem C4_counterexample :
    SafeEval.evalExpr [] absExpr = .error .unsupportedNode ∧
    OptFlow.wrapSafeEval (some absExpr) [] = false :=
  ⟨rfl, rfl⟩

/-- C4 (amended): evaluating a construct outside the safe grammar — a
function call (including `abs`), attribute access, or indexing — or a
reference to an unknown variable fails closed: `safe_eval` raises a
`ValueError` and the engine wrapper reports the state as not matched; the
wrapper itself is a total function, so nothing propagates past the State
Matcher boundary. -/
theorem C4_unsafe_constructs_fail_closed :
    ∀ (env : SafeEval.Env) (fn attr id : String)
      (args : List SafeEval.Expr) (obj idx : SafeEval.Expr),
      SafeEval.evalExpr env (.call fn args) = .error .unsupportedNode ∧
      SafeEval.evalExpr env (.attribute obj attr) = .error .unsupportedNode ∧
      SafeEval.evalExpr env (.subscript obj idx) = .error .unsupportedNode ∧
      OptFlow.wrapSafeEval (some (.call fn args)) env = false ∧
      OptFlow.wrapSafeEval (some (.attribute obj attr)) env = false ∧
      OptFlow.wrapSafeEval (some (.subscript obj idx)) env = false ∧
      (env.lookup id = Option.none →
        OptFlow.wrapSafeEval (some (.name id)) env = false) ∧
      OptFlow.wrapSafeEval Option.none env = false := by
  intro env fn attr id args obj idx
  refine ⟨rfl, rfl, rfl, rfl, rfl, rfl, ?_, rfl⟩
  intro h
  simp [OptFlow.wrapSafeEval, SafeEval.safeEvalB, SafeEval.evalExpr, Except.map, h]

/-- C4 witness: the fail-closed theorem applied to a concrete unknown
variable reference. -/
theorem C4_witness :
    OptFlow.wrapSafeEval (some (.name "rsi")) [] = false :=
  (C4_unsafe_constructs_fail_closed [] "f" "a" "rsi" [] (.const .none) (.const .none)).2.2.2.2.2.2.1 rfl

/-- C3 counterexample: in `score_universe`
(`src/rulebooks/scoring_system.py` lines 1869-1880) the comparison is
strict (`total > 0.5`), so a master score exactly equal to the `0.5`
cutoff yields `NEUTRAL`, not `LONG` as the claim requires. -/
theorem C3_counterexample :
    MasterB.direction (1 / 2) = "NEUTRAL" ∧ "NEUTRAL" ≠ "LONG" := by
  constructor
  · norm_num [MasterB.direction]
  · decide

/-- C3 (amended): `master_scoring.py`'s `_direction_from_score` satisfies
the claimed boundary-inclusive rule exactly (`LONG` iff `score ≥ t`,
`SHORT` iff `score ≤ -t`, `NEUTRAL` iff strictly between), while
`score_universe` in `scoring_system.py` uses strict comparisons against
the fixed cutoff `0.5`, so scores exactly at `±0.5` yield `NEUTRAL`. -/
theorem C3_direction_boundaries :
    ∀ t s : ℚ, 0 < t →
      ((MasterA.directionFromScore t s = "LONG" ↔ t ≤ s) ∧
       (MasterA.directionFromScore t s = "SHORT" ↔ s ≤ -t) ∧
       (MasterA.directionFromScore t s = "NEUTRAL" ↔ -t < s ∧ s < t)) ∧
      ((MasterB.direction s = "LONG" ↔ 1 / 2 < s) ∧
       (MasterB.direction s = "SHORT" ↔ s < -(1 / 2)) ∧
       (MasterB.direction s = "NEUTRAL" ↔ -(1 / 2) ≤ s ∧ s ≤ 1 / 2)) := by
  intro t s ht
  constructor
  · unfold MasterA.directionFromScore
    refine ⟨?_, ?_, ?_⟩ <;> split_ifs with h1 h2
    · exact iff_of_true rfl h1
    · exact iff_of_false (by decide) h1
    · exact iff_of_false (by decide) h1
    · exact iff_of_false (by decide) (by intro hh; linarith)
    · exact iff_of_true rfl h2
    · exact iff_of_false (by decide) h2
    · exact iff_of_false (by decide) (by rintro ⟨h3, h4⟩; linarith)
    · exact iff_of_false (by decide) (by rintro ⟨h3, h4⟩; linarith)
    · exact iff_of_true rfl ⟨by linarith [not_le.mp h2], not_le.mp h1⟩
  · unfold MasterB.direction
    refine ⟨?_, ?_, ?_⟩ <;> split_ifs with h1 h2
    · exact iff_of_true rfl h1
    · exact iff_of_false (by decide) h1
    · exact iff_of_false (by decide) h1
    · exact iff_of_false (by decide) (by intro hh; linarith)
    · exact iff_of_true rfl h2
    · exact iff_of_false (by decide) h2
    · exact iff_of_false (by decide) (by rintro ⟨h3, h4⟩; linarith)
    · exact iff_of_false (by decide) (by rintro ⟨h3, h4⟩; linarith)
    · exact iff_of_true rfl ⟨by linarith [not_lt.mp h2], not_lt.mp h1⟩

/-- C3 witness: the boundary theorem applied at threshold 2 and score 2
yields `LONG`. -/
theorem C3_witness : MasterA.directionFromScore 2 2 = "LONG" :=
  ((C3_direction_boundaries 2 2 (by norm_num)).1.1).mpr (by norm_num)

/-- C9 (spec-modelled): a department that observed no refresh trigger
during a cycle keeps its last-known record — its contribution to the new
master result is its previous cycle's weighted score unchanged — and when
no department is triggered the whole master sum is unchanged. -/
theorem C9_stale_department_keeps_last_score :
    ∀ (triggers : String → Bool) (recompute : String → ℚ)
      (recs : List (String × Staleness.StaleRec)) (d : String),
      (triggers d = false →
        (Staleness.cycle triggers recompute recs).lookup d = recs.lookup d) ∧
      ((∀ x, triggers x = false) →
        Staleness.masterSum (Staleness.cycle triggers recompute recs)
          = Staleness.masterSum recs) := by
  intro triggers recompute recs d
  constructor
  · intro h
    induction recs with
    | nil => rfl
    | cons p rest ih =>
      obtain ⟨k, r⟩ := p
      simp only [Staleness.cycle, List.map_cons] at *
      rw [List.lookup, List.lookup]
      by_cases hk : d == k
      · rw [hk]
        have hdk : d = k := eq_of_beq hk
        subst hdk
        simp [Staleness.cycleStep, h]
      · rw [Bool.eq_false_iff.mpr hk]
        exact ih
  · intro hall
    have hc : Staleness.cycle triggers recompute recs = recs := by
      induction recs with
      | nil => rfl
      | cons p rest ih =>
        simp only [Staleness.cycle, List.map_cons] at *
        rw [ih]
        simp [Staleness.cycleStep, hall p.1]
    rw [hc]

/-- C9 witness: the staleness theorem applied to a concrete one-department
table with no trigger. -/
theorem C9_witness :
    (Staleness.cycle (fun _ => false) (fun _ => 0) recsFix).lookup "TECHNICAL"
      = recsFix.lookup "TECHNICAL" :=
  (C9_stale_department_keeps_last_score (fun _ => false) (fun _ => 0) recsFix "TECHNICAL").1 rfl

set_option maxHeartbeats 1000000 in
/-- C2 counterexample: `MasterScoringEngine.score_symbol` in
`src/scoring/master_scoring.py` does not return the plain sum of the
supplied module scores: two modules reporting 8 each yield a master score
of 8 (the average), not the sum 16; and the result is re-clamped, a lone
module score of 12 yielding 10. -/
theorem C2_counterexample :
    (MasterA.scoreSymbol (fun _ => true) 2 [("macro", 8), ("news", 8)]).1 = 8 ∧
    (8 : ℚ) ≠ 8 + 8 ∧
    (MasterA.scoreSymbol (fun _ => true) 2 [("macro", 12)]).1 = 10 ∧
    (10 : ℚ) ≠ 12 := by
  refine ⟨?_, by norm_num, ?_, by norm_num⟩
  · simp [MasterA.scoreSymbol, MasterA.accumulate, MasterA.moduleOrder, List.lookup]
    norm_num [MasterA.clamp10, min_def, max_def]
  · simp [MasterA.scoreSymbol, MasterA.accumulate, MasterA.moduleOrder, List.lookup]
    norm_num [MasterA.clamp10, min_def, max_def]

/-- C2 (amended): `score_universe` in `scoring_system.py` does return the
plain unweighted sum of the components' weighted scores
(`clamped raw × weight`) with no re-clamp — at two components of
weighted score 10 each its total is 20, beyond the per-department scale —
while `score_symbol` in `master_scoring.py` instead returns the
re-clamped *average* of the clamped module scores. -/
theorem C2_master_sum_not_reclamped :
    (∀ rws : List (ℚ × ℚ),
      (MasterB.scoreEntry rws).1 = (rws.map fun p => max (-10) (min 10 p.1) * p.2).sum) ∧
    (MasterB.scoreEntry [(12, 1), (12, 1)]).1 = 20 ∧
    (∀ t a b : ℚ,
      (MasterA.scoreSymbol (fun _ => true) t [("macro", a), ("news", b)]).1
        = MasterA.clamp10 ((MasterA.clamp10 a + MasterA.clamp10 b) / 2)) := by
  refine ⟨?_, ?_, ?_⟩
  · intro rws
    simp only [MasterB.scoreEntry, MasterB.masterTotal, List.map_map]
    rfl
  · norm_num [MasterB.scoreEntry, MasterB.masterTotal, BaseComp.scoreSymbol, min_def, max_def]
  · intro t a b
    simp [MasterA.scoreSymbol, MasterA.accumulate, MasterA.moduleOrder, List.lookup]

/-- C5 counterexample: the options-flow engine accumulates matched states
by *summation* — two matched states with score midpoints 4 and 6 (unit
group weight) produce a score of 10, not the arithmetic mean 5. -/
theorem C5_counterexample :
    OptFlow.minorScore [] [] ofTwoStates = 10 ∧ (10 : ℚ) ≠ (4 + 6) / 2 := by
  constructor
  · norm_num [OptFlow.minorScore, OptFlow.minorScore.midpoint, OptFlow.wrapSafeEval,
      ofTwoStates, condTrue, SafeEval.safeEvalB, SafeEval.evalExpr, SafeEval.truthy,
      Except.map, List.foldl]
  · norm_num

/-- C5 (amended): in the fundamentals engine every matched state
contributes the midpoint of its score range and two overlapping matched
states yield the arithmetic mean of their midpoints (scenario D), while
the options-flow engine instead *sums* the group-weighted midpoints
across matched states. -/
theorem C5_overlapping_states_mean :
    ∀ (matchf : String → Bool) (n s₁n s₂n : String) (s₁ s₂ : Fund.FState),
      s₁.condition ≠ "" → matchf s₁.condition = true →
      s₂.condition ≠ "" → matchf s₂.condition = true →
      (Fund.scoreMetricStates matchf n [(s₁n, s₁), (s₂n, s₂)]).1
        = some ((Fund.midpoint s₁.scoreRange + Fund.midpoint s₂.scoreRange) / 2) := by
  intro matchf n n1 n2 s₁ s₂ h1 h2 h3 h4
  simp [Fund.scoreMetricStates, List.filter, h1, h2, h3, h4]

/-- C5 witness: the mean theorem applied to two concrete overlapping
states with midpoints 4 and 6 gives exactly 5. -/
theorem C5_witness :
    (Fund.scoreMetricStates mfTrue "M" [("S1", ⟨"c1", (4, 4)⟩), ("S2", ⟨"c2", (6, 6)⟩)]).1
      = some 5 := by
  have h := C5_overlapping_states_mean mfTrue "M" "S1" "S2" ⟨"c1", (4, 4)⟩ ⟨"c2", (6, 6)⟩
    (by decide) rfl (by decide) rfl
  rw [h]
  norm_num [Fund.midpoint]

/-- C6 counterexample: the price-action engine always halves the sum of
the two timeframe scores — with only MINOR producing a (non-zero) score
of 4 the final score is `((4 + 0) / 2) × 1.2 = 2.4`, not the direct
`4 × 1.2 = 4.8` the claim requires. -/
theorem C6_counterexample :
    PA.scoreTimeframe mfTrue [("P", paPattern)] "MINOR" = 4 ∧
    PA.scoreTimeframe mfTrue [("P", paPattern)] "MAJOR" = 0 ∧
    PA.finalScore mfTrue [("P", paPattern)] = 12 / 5 ∧
    (12 / 5 : ℚ) ≠ 4 * PA.deptWeight := by
  refine ⟨?_, ?_, ?_, ?_⟩ <;>
    norm_num [PA.finalScore, PA.scoreTimeframe, PA.collect, PA.midpoint, PA.deptWeight,
      paPattern, mfTrue, List.foldl, List.lookup,
      show (("MAJOR" : String) == "MINOR") = false by decide,
      show (("MINOR" : String) == "MINOR") = true by decide]

/-- C6 (amended): the fundamentals engine blends MINOR and MAJOR with the
fixed 70/30 convex ratio when both are non-negligible and uses the lone
non-negligible timeframe score *directly* otherwise; the price-action
engine instead always averages the two timeframes (counterexample above),
and the technical component multiplies a lone timeframe score by its
0.6/0.4 blend weight. -/
theorem C6_minor_major_blend :
    ∀ minor major : ℚ,
      (|minor| > 1 / 1000000 → |major| > 1 / 1000000 →
        Fund.combineMinorMajor minor major = major * (7 / 10) + minor * (3 / 10)) ∧
      (¬ |minor| > 1 / 1000000 → |major| > 1 / 1000000 →
        Fund.combineMinorMajor minor major = major) ∧
      (|minor| > 1 / 1000000 → ¬ |major| > 1 / 1000000 →
        Fund.combineMinorMajor minor major = minor) ∧
      (¬ |minor| > 1 / 1000000 → ¬ |major| > 1 / 1000000 →
        Fund.combineMinorMajor minor major = 0) := by
  intro minor major
  refine ⟨?_, ?_, ?_, ?_⟩ <;> intro h1 h2 <;>
    simp only [Fund.combineMinorMajor] <;> split_ifs <;> simp_all <;> linarith

/-- C6 witness: the blend theorem applied with a negligible MINOR score
and MAJOR score 5 returns 5 directly. -/
theorem C6_witness : Fund.combineMinorMajor 0 5 = 5 :=
  (C6_minor_major_blend 0 5).2.1 (by norm_num) (by norm_num)

/-- C1 counterexample: in the technical component a configured indicator
whose states all fail to match still returns a score of `0.0` (not
`None`) and its `base_impact` still enters the denominator — removing the
non-matching indicator `B` changes the department score from `1.2` to
`2.4`, so a non-match *is* counted as a score of 0 there. -/
theorem C1_counterexample :
    Tech.scoreIndicatorTimeframe mfA true indB.minor = some 0 ∧
    Tech.computeRawScore mfA mfA true true [("A", indA), ("B", indB)] = 6 / 5 ∧
    Tech.computeRawScore mfA mfA true true [("A", indA)] = 12 / 5 ∧
    (6 / 5 : ℚ) ≠ 12 / 5 := by
  refine ⟨?_, ?_, ?_, by norm_num⟩ <;>
    norm_num [Tech.computeRawScore, Tech.techStep, Tech.scoreIndicatorTimeframe,
      Tech.combinedIndicator, Tech.midpoint, indA, indB, mfA, List.foldl, List.filter,
      show (("condB" : String) == "condA") = false by decide,
      show (("condA" : String) == "condA") = true by decide]

/-- C1 (amended): in the fundamentals engine the claim holds — a metric
whose states all fail to match (its metric score is `None`) is excluded
from both the numerator and the denominator of its timeframe's weighted
sum, so removing it from the rule table leaves the timeframe score (and
the full result triple) unchanged; the technical component instead counts
a non-match as score 0 with full weight (counterexample above). -/
theorem C1_nonmatching_metric_excluded :
    ∀ (matchf : String → Bool) (groups : List (String × ℚ))
      (pre post : List (String × Fund.Metric)) (tf nm : String) (m : Fund.Metric)
      (states : List (String × Fund.FState)),
      m.timeframes.lookup tf = some states →
      (Fund.scoreMetricStates matchf nm states).1 = Option.none →
      Fund.scoreTimeframe matchf ⟨groups, pre ++ (nm, m) :: post⟩ tf
        = Fund.scoreTimeframe matchf ⟨groups, pre ++ post⟩ tf := by
  intro matchf groups pre post tf nm m states hlk hnone
  have hstep : ∀ acc, Fund.tfStep matchf groups tf acc (nm, m) = acc := by
    intro acc
    simp [Fund.tfStep, hlk, hnone]
  unfold Fund.scoreTimeframe
  simp only [List.foldl_append, List.foldl_cons, hstep]

/-- C1 witness: removing the concrete non-matching metric `M2` leaves the
fundamentals MAJOR timeframe result unchanged. -/
theorem C1_witness :
    Fund.scoreTimeframe mfA ⟨[("G", 1)], [("M1", mMatching), ("M2", mNonMatching)]⟩ "MAJOR"
      = Fund.scoreTimeframe mfA ⟨[("G", 1)], [("M1", mMatching)]⟩ "MAJOR" :=
  C1_nonmatching_metric_excluded mfA [("G", 1)] [("M1", mMatching)] [] "MAJOR" "M2"
    mNonMatching [("S", ⟨"condB", (2, 2)⟩)]
    (by simp [mNonMatching, List.lookup])
    (by simp [Fund.scoreMetricStates, mfA, List.filter,
      show (("condB" : String) == "condA") = false by decide])

/-- C8 counterexample: in the technical component an indicator with no
timeframe configuration produces no score for either timeframe
(`None` twice), yet its `|base_impact|` still enters the denominator
`total_weight`: adding the score-less indicator `C` drags the department
score from `2.4` down to `1.2`, so the division is not taken over exactly
the metrics that produced a score. -/
theorem C8_counterexample :
    Tech.scoreIndicatorTimeframe mfA true indC.minor = Option.none ∧
    Tech.scoreIndicatorTimeframe mfA true indC.major = Option.none ∧
    Tech.computeRawScore mfA mfA true true [("A", indA), ("C", indC)] = 6 / 5 ∧
    Tech.computeRawScore mfA mfA true true [("A", indA)] = 12 / 5 ∧
    (6 / 5 : ℚ) ≠ 12 / 5 := by
  refine ⟨rfl, rfl, ?_, ?_, by norm_num⟩ <;>
    norm_num [Tech.computeRawScore, Tech.techStep, Tech.scoreIndicatorTimeframe,
      Tech.combinedIndicator, Tech.midpoint, indA, indC, mfA, List.foldl, List.filter,
      show (("condA" : String) == "condA") = true by decide]

/-- The metric loop of the fundamentals `_score_timeframe` accumulates
exactly the numerator and denominator of the spec's formula over the
contributing metrics. -/
theorem tfStep_foldl_spec (matchf : String → Bool) (groups : List (String × ℚ)) (tf : String) :
    ∀ (metrics : List (String × Fund.Metric)) (acc : Fund.TFAcc),
      (metrics.foldl (Fund.tfStep matchf groups tf) acc).wsum
        = acc.wsum + ((Fund.specContribs matchf groups tf metrics).map fun q => q.1 * q.2).sum ∧
      (metrics.foldl (Fund.tfStep matchf groups tf) acc).wtot
        = acc.wtot + ((Fund.specContribs matchf groups tf metrics).map Prod.snd).sum := by
  intro metrics
  induction metrics with
  | nil => intro acc; simp [Fund.specContribs]
  | cons p rest ih =>
    intro acc
    rw [List.foldl_cons]
    cases hlk : p.2.timeframes.lookup tf with
    | none =>
      have hstep : Fund.tfStep matchf groups tf acc p = acc := by
        simp [Fund.tfStep, hlk]
      have hsc : Fund.specContribs matchf groups tf (p :: rest)
          = Fund.specContribs matchf groups tf rest := by
        simp [Fund.specContribs, List.filterMap_cons, hlk]
      rw [hstep, hsc]
      exact ih acc
    | some states =>
      cases hms : (Fund.scoreMetricStates matchf p.1 states).1 with
      | none =>
        have hstep : Fund.tfStep matchf groups tf acc p = acc := by
          simp [Fund.tfStep, hlk, hms]
        have hsc : Fund.specContribs matchf groups tf (p :: rest)
            = Fund.specContribs matchf groups tf rest := by
          simp [Fund.specContribs, List.filterMap_cons, hlk, hms]
        rw [hstep, hsc]
        exact ih acc
      | some s =>
        have hstep : Fund.tfStep matchf groups tf acc p
            = { wsum := acc.wsum + s * (p.2.weight * (groups.lookup p.2.group).getD 1)
                wtot := acc.wtot + p.2.weight * (groups.lookup p.2.group).getD 1
                scores := acc.scores ++ [(p.1, s)]
                states := acc.states ++ (Fund.scoreMetricStates matchf p.1 states).2 } := by
          simp [Fund.tfStep, hlk, hms]
        have hsc : Fund.specContribs matchf groups tf (p :: rest)
            = (s, p.2.weight * (groups.lookup p.2.group).getD 1)
              :: Fund.specContribs matchf groups tf rest := by
          simp [Fund.specContribs, List.filterMap_cons, hlk, hms]
        rw [hstep, hsc]
        obtain ⟨ih1, ih2⟩ := ih
          { wsum := acc.wsum + s * (p.2.weight * (groups.lookup p.2.group).getD 1)
            wtot := acc.wtot + p.2.weight * (groups.lookup p.2.group).getD 1
            scores := acc.scores ++ [(p.1, s)]
            states := acc.states ++ (Fund.scoreMetricStates matchf p.1 states).2 }
        rw [ih1, ih2]
        simp only [List.map_cons, List.sum_cons]
        constructor <;> ring

/-- C8 (amended): the fundamentals timeframe score equals the spec's
formula `Σ(metric_score × metric_weight × group_base_weight) /
Σ(metric_weight × group_base_weight)` taken over exactly the metrics that
produced a score, and it is `0` when no metric contributed (the division
is guarded, and the Lean embedding is a total function, so no division
error can occur); the fundamentals engine records no explicit textual
reason, and the technical component's denominator also counts indicators
that produced no score (counterexample above). -/
theorem C8_timeframe_formula :
    ∀ (matchf : String → Bool) (rb : Fund.Rulebook) (tf : String),
      (Fund.scoreTimeframe matchf rb tf).1 = Fund.specTimeframeScore matchf rb tf ∧
      (Fund.specContribs matchf rb.groups tf rb.metrics = [] →
        (Fund.scoreTimeframe matchf rb tf).1 = 0) := by
  intro matchf rb tf
  obtain ⟨hw, ht⟩ := tfStep_foldl_spec matchf rb.groups tf rb.metrics ⟨0, 0, [], []⟩
  constructor
  · simp only [Fund.scoreTimeframe, Fund.specTimeframeScore, hw, ht, zero_add]
    split_ifs <;> rfl
  · intro h
    simp only [Fund.scoreTimeframe, hw, ht, h, List.map_nil, List.sum_nil, add_zero]
    norm_num

/-- C8 witness: the formula theorem applied to the empty rule table —
zero contributing metrics give a timeframe score of 0. -/
theorem C8_witness : (Fund.scoreTimeframe mfTrue rbEmpty "MINOR").1 = 0 :=
  (C8_timeframe_formula mfTrue rbEmpty "MINOR").2 rfl

/-- The midpoint of a score range inside the scale lies inside the scale. -/
theorem midpoint_bounds {mn mx : ℚ} {r : ℚ × ℚ} (h1 : mn ≤ r.1) (h2 : r.1 ≤ r.2)
    (h3 : r.2 ≤ mx) : mn ≤ Fund.midpoint r ∧ Fund.midpoint r ≤ mx := by
  unfold Fund.midpoint
  constructor <;> linarith

/-- A metric score produced by `_score_metric_states` lies inside the
scale whenever every state's score range does. -/
theorem scoreMetricStates_bounds {mn mx : ℚ} (matchf : String → Bool) (n : String)
    (states : List (String × Fund.FState))
    (hr : ∀ st ∈ states, mn ≤ st.2.scoreRange.1 ∧ st.2.scoreRange.1 ≤ st.2.scoreRange.2 ∧
      st.2.scoreRange.2 ≤ mx) :
    ∀ s, (Fund.scoreMetricStates matchf n states).1 = some s → mn ≤ s ∧ s ≤ mx := by
  intro s hs
  unfold Fund.scoreMetricStates at hs
  simp only [] at hs
  set L := (states.filter fun p => p.2.condition ≠ "" && matchf p.2.condition).map
    (fun p => Fund.midpoint p.2.scoreRange) with hL
  have hmem : ∀ x ∈ L, mn ≤ x ∧ x ≤ mx := by
    intro x hx
    rw [hL] at hx
    obtain ⟨p, hpf, hpx⟩ := List.mem_map.mp hx
    have hps : p ∈ states := List.mem_of_mem_filter hpf
    obtain ⟨b1, b2, b3⟩ := hr p hps
    have hmid := midpoint_bounds b1 b2 b3
    rw [hpx] at hmid
    exact hmid
  cases hcase : L with
  | nil =>
    rw [hcase] at hs
    simp at hs
  | cons a t =>
    rw [hcase] at hs
    have hs' : ((a :: t : List ℚ)).sum / (((a :: t : List ℚ)).length : ℚ) = s :=
      Option.some.inj hs
    rw [← hs']
    rw [hcase] at hmem
    exact mean_bounds_of_mem (a :: t) hmem (by simp)

/-- The metric loop of `_score_timeframe` preserves the invariant that
the accumulated numerator is bounded by the accumulated (nonnegative)
denominator times the scale bounds. -/
theorem tfStep_foldl_bounds {mn mx : ℚ}
    (matchf : String → Bool) (groups : List (String × ℚ)) (tf : String)
    (hg : ∀ p ∈ groups, 0 ≤ p.2) :
    ∀ (metrics : List (String × Fund.Metric)),
      (∀ p ∈ metrics, 0 ≤ p.2.weight) →
      (∀ p ∈ metrics, ∀ q ∈ p.2.timeframes, ∀ st ∈ q.2,
        mn ≤ st.2.scoreRange.1 ∧ st.2.scoreRange.1 ≤ st.2.scoreRange.2 ∧
          st.2.scoreRange.2 ≤ mx) →
      ∀ acc : Fund.TFAcc,
        mn * acc.wtot ≤ acc.wsum → acc.wsum ≤ mx * acc.wtot → 0 ≤ acc.wtot →
        mn * (metrics.foldl (Fund.tfStep matchf groups tf) acc).wtot
            ≤ (metrics.foldl (Fund.tfStep matchf groups tf) acc).wsum ∧
          (metrics.foldl (Fund.tfStep matchf groups tf) acc).wsum
            ≤ mx * (metrics.foldl (Fund.tfStep matchf groups tf) acc).wtot ∧
          0 ≤ (metrics.foldl (Fund.tfStep matchf groups tf) acc).wtot := by
  intro metrics
  induction metrics with
  | nil => intro _ _ acc h1 h2 h3; exact ⟨h1, h2, h3⟩
  | cons p rest ih =>
    intro hw hr acc h1 h2 h3
    rw [List.foldl_cons]
    have hw' : ∀ q ∈ rest, 0 ≤ q.2.weight := fun q hq => hw q (List.mem_cons_of_mem p hq)
    have hr' : ∀ q ∈ rest, ∀ tfq ∈ q.2.timeframes, ∀ st ∈ tfq.2,
        mn ≤ st.2.scoreRange.1 ∧ st.2.scoreRange.1 ≤ st.2.scoreRange.2 ∧
          st.2.scoreRange.2 ≤ mx :=
      fun q hq => hr q (List.mem_cons_of_mem p hq)
    cases hlk : p.2.timeframes.lookup tf with
    | none =>
      have hstep : Fund.tfStep matchf groups tf acc p = acc := by
        simp [Fund.tfStep, hlk]
      rw [hstep]
      exact ih hw' hr' acc h1 h2 h3
    | some states =>
      cases hms : (Fund.scoreMetricStates matchf p.1 states).1 with
      | none =>
        have hstep : Fund.tfStep matchf groups tf acc p = acc := by
          simp [Fund.tfStep, hlk, hms]
        rw [hstep]
        exact ih hw' hr' acc h1 h2 h3
      | some s =>
        have hrs : ∀ st ∈ states, mn ≤ st.2.scoreRange.1 ∧
            st.2.scoreRange.1 ≤ st.2.scoreRange.2 ∧ st.2.scoreRange.2 ≤ mx :=
          hr p (List.mem_cons_self p rest) (tf, states) (lookup_eq_some_mem hlk)
        obtain ⟨hs1, hs2⟩ := scoreMetricStates_bounds matchf p.1 states hrs s hms
        have hwnn : 0 ≤ p.2.weight * (groups.lookup p.2.group).getD 1 :=
          mul_nonneg (hw p (List.mem_cons_self p rest)) (lookup_getD_nonneg hg p.2.group)
        have hstep : Fund.tfStep matchf groups tf acc p
            = { wsum := acc.wsum + s * (p.2.weight * (groups.lookup p.2.group).getD 1)
                wtot := acc.wtot + p.2.weight * (groups.lookup p.2.group).getD 1
                scores := acc.scores ++ [(p.1, s)]
                states := acc.states ++ (Fund.scoreMetricStates matchf p.1 states).2 } := by
          simp [Fund.tfStep, hlk, hms]
        rw [hstep]
        refine ih hw' hr' _ ?_ ?_ ?_ <;> simp only []
        · nlinarith [mul_le_mul_of_nonneg_right hs1 hwnn]
        · nlinarith [mul_le_mul_of_nonneg_right hs2 hwnn]
        · linarith

/-- A timeframe score of the fundamentals engine lies inside the scale
for a valid rule table with a scale containing 0. -/
theorem scoreTimeframe_bounds {mn mx : ℚ} (hmn : mn ≤ 0) (hmx : 0 ≤ mx)
    (matchf : String → Bool) (rb : Fund.Rulebook) (tf : String)
    (hg : ∀ p ∈ rb.groups, 0 ≤ p.2)
    (hw : ∀ p ∈ rb.metrics, 0 ≤ p.2.weight)
    (hr : ∀ p ∈ rb.metrics, ∀ q ∈ p.2.timeframes, ∀ st ∈ q.2,
      mn ≤ st.2.scoreRange.1 ∧ st.2.scoreRange.1 ≤ st.2.scoreRange.2 ∧
        st.2.scoreRange.2 ≤ mx) :
    mn ≤ (Fund.scoreTimeframe matchf rb tf).1 ∧ (Fund.scoreTimeframe matchf rb tf).1 ≤ mx := by
  obtain ⟨k1, k2, k3⟩ := tfStep_foldl_bounds matchf rb.groups tf hg rb.metrics hw hr
    ⟨0, 0, [], []⟩ (by simp) (by simp) (by norm_num)
  unfold Fund.scoreTimeframe
  by_cases hz : (rb.metrics.foldl (Fund.tfStep matchf rb.groups tf) ⟨0, 0, [], []⟩).wtot = 0
  · rw [if_pos hz]
    exact ⟨hmn, hmx⟩
  · have hpos : 0 < (rb.metrics.foldl (Fund.tfStep matchf rb.groups tf) ⟨0, 0, [], []⟩).wtot :=
      lt_of_le_of_ne k3 (Ne.symm hz)
    rw [if_neg hz]
    dsimp only
    constructor
    · rw [le_div_iff₀ hpos]
      linarith
    · rw [div_le_iff₀ hpos]
      linarith

/-- The MINOR/MAJOR combination stays inside a scale containing 0 when
both timeframe scores are inside it. -/
theorem combineMinorMajor_bounds {mn mx a b : ℚ} (hmn : mn ≤ 0) (hmx : 0 ≤ mx)
    (ha1 : mn ≤ a) (ha2 : a ≤ mx) (hb1 : mn ≤ b) (hb2 : b ≤ mx) :
    mn ≤ Fund.combineMinorMajor a b ∧ Fund.combineMinorMajor a b ≤ mx := by
  simp only [Fund.combineMinorMajor]
  split_ifs <;> constructor <;> linarith

/-- C7 counterexample: the fundamentals engine performs no clamping
before weighting — with a (malformed) score range of `[100, 100]` its
combined raw score is 100 and the weighted result is `100 × 0.75 = 75`,
far beyond `10 × 0.75`, which a clamp-before-weighting implementation
could never produce. -/
theorem C7_counterexample :
    Fund.combinedScore mfTrue rb100 = 100 ∧
    Fund.finalWeighted mfTrue rb100 = 75 ∧
    (75 : ℚ) > 10 * Fund.deptWeight := by
  refine ⟨?_, ?_, by norm_num [Fund.deptWeight]⟩ <;>
    norm_num [Fund.finalWeighted, Fund.combinedScore, Fund.scoreTimeframe, Fund.tfStep,
      Fund.scoreMetricStates, Fund.midpoint, Fund.combineMinorMajor, Fund.deptWeight,
      rb100, fs100, mfTrue, List.foldl, List.filter, List.lookup,
      show (("MINOR" : String) == "MAJOR") = false by decide,
      show (("MAJOR" : String) == "MAJOR") = true by decide,
      show (("G" : String) == "G") = true by decide,
      show (decide (("c" : String) = "")) = false by decide, abs]

/-- C7 (amended): `BaseScoringComponent.score_symbol` clamps the raw
score to `[-10, 10]` before multiplying by the department weight; the
fundamentals engine has no clamping step (counterexample above), but for
a valid rule table — every score range inside the declared scale,
nonnegative metric and group weights, and a scale containing 0 — its raw
combined score still lies within `[scale.min, scale.max]`. -/
theorem C7_raw_score_bounds :
    (∀ raw w : ℚ,
      -10 ≤ (BaseComp.scoreSymbol raw w).rawScore ∧
      (BaseComp.scoreSymbol raw w).rawScore ≤ 10 ∧
      (BaseComp.scoreSymbol raw w).weightedScore = (BaseComp.scoreSymbol raw w).rawScore * w) ∧
    (∀ (matchf : String → Bool) (rb : Fund.Rulebook) (mn mx : ℚ),
      mn ≤ 0 → 0 ≤ mx →
      (∀ p ∈ rb.groups, 0 ≤ p.2) →
      (∀ p ∈ rb.metrics, 0 ≤ p.2.weight) →
      (∀ p ∈ rb.metrics, ∀ q ∈ p.2.timeframes, ∀ st ∈ q.2,
        mn ≤ st.2.scoreRange.1 ∧ st.2.scoreRange.1 ≤ st.2.scoreRange.2 ∧
          st.2.scoreRange.2 ≤ mx) →
      mn ≤ Fund.combinedScore matchf rb ∧ Fund.combinedScore matchf rb ≤ mx) := by
  constructor
  · intro raw w
    simp only [BaseComp.scoreSymbol]
    refine ⟨le_max_left _ _, max_le (by norm_num) (min_le_left _ _), trivial⟩
  · intro matchf rb mn mx hmn hmx hg hw hr
    have hminor := scoreTimeframe_bounds hmn hmx matchf rb "MINOR" hg hw hr
    have hmajor := scoreTimeframe_bounds hmn hmx matchf rb "MAJOR" hg hw hr
    exact combineMinorMajor_bounds hmn hmx hminor.1 hminor.2 hmajor.1 hmajor.2

/-- C7 witness: the bounds theorem applied to a concrete valid rule table
keeps the fundamentals raw score inside `[-10, 10]`. -/
theorem C7_witness :
    -10 ≤ Fund.combinedScore mfTrue rbValid ∧ Fund.combinedScore mfTrue rbValid ≤ 10 :=
  C7_raw_score_bounds.2 mfTrue rbValid (-10) 10 (by norm_num) (by norm_num)
    (by intro p hp; simp [rbValid] at hp; subst hp; norm_num)
    (by intro p hp; simp [rbValid] at hp; subst hp; norm_num)
    (by
      intro p hp q hq st hst
      simp [rbValid] at hp
      subst hp
      simp at hq
      subst hq
      simp at hst
      subst hst
      norm_num)
